import Mathlib

/-!
Verification of the run-quick interactive shell (src/main.py).

The definitions below are a shallow embedding of the operations in
src/main.py: strings are Lean `String` (character lists), the sqlite
`languages` table is a `List String` of rows (`Option` when the table may
be structurally absent), and effectful dispatch is modelled by an explicit
trace of `Effect`s.  The `aliases`, `errors`, and `jargon` modules of the
repository are imported by src/main.py but their sources are not present;
the few operations of theirs that are needed (`dealias`, `wrap_jargon`)
are modelled from the specification and marked as such.
-/

namespace RunQuick

/-- One backtick character (ASCII 96). -/
def btChar : Char := Char.ofNat 96

/-- The triple-backtick fence delimiter as a character list. -/
def backticks : List Char := [btChar, btChar, btChar]

/-- Python `s.startswith(pat)` over character lists: `pat` is a leading
segment of the second argument. -/
def isLead : List Char → List Char → Bool
  | [], _ => true
  | _ :: _, [] => false
  | p :: ps, c :: cs => p == c && isLead ps cs

/-- Python `s.startswith(pat)` on strings. -/
def pyStartsWith (s pat : String) : Bool :=
  isLead pat.data s.data

/-- Splits a character list at the first occurrence of `pat`
(Python `s.split(pat, 1)` when `pat in s`): returns the part before the
occurrence and the part after it, or `none` when `pat` does not occur. -/
def splitFirst (pat : List Char) : List Char → Option (List Char × List Char)
  | [] => if isLead pat [] then some ([], List.drop pat.length []) else none
  | c :: t =>
    if isLead pat (c :: t) then some ([], List.drop pat.length (c :: t))
    else (splitFirst pat t).map (fun p => (c :: p.1, p.2))

/-- Python `pat in s` on strings. -/
def pyContains (s pat : String) : Bool :=
  (splitFirst pat.data s.data).isSome

/-- Python `s[n:]` on strings. -/
def pyDrop (s : String) (n : Nat) : String :=
  String.mk (s.data.drop n)

/-- Strips one leading newline character, as the
`if statement.startswith("\n"): statement = statement[1:]` step of
`unwrap_code_block` does (src/main.py lines 299-300). -/
def stripLeadNl : List Char → List Char
  | [] => []
  | c :: t => if c = '\n' then t else c :: t

/-- Python `s.endswith("\n")` over a character list. -/
def endsNl (l : List Char) : Bool :=
  match l.getLast? with
  | some c => c == '\n'
  | none => false

/-- Strips one trailing newline character, as the
`if statement.endswith("\n"): statement = statement[:-1]` step of
`unwrap_code_block` does (src/main.py lines 304-305). -/
def stripTrailNl (l : List Char) : List Char :=
  if endsNl l then l.dropLast else l

/-- Embedding of `unwrap_code_block` (src/main.py lines 289-306) over a
character list: if the input does not start with the triple-backtick
delimiter it is returned unchanged with an empty second component;
otherwise the delimiter and one immediately following newline are
stripped, the remainder is split at the first closing delimiter when one
exists, one trailing newline of the body is stripped, and the text after
the closing delimiter becomes the second component. -/
def unwrapCB (statement : List Char) : List Char × List Char :=
  if isLead backticks statement = false then (statement, [])
  else
    let s1 := statement.drop 3
    let s2 := stripLeadNl s1
    let pr :=
      match splitFirst backticks s2 with
      | some p => p
      | none => (s2, [])
    (stripTrailNl pr.1, pr.2)

/-- `unwrap_code_block` (src/main.py lines 289-306) on strings: returns
the code body and the remainder used as program stdin. -/
def unwrap_code_block (statement : String) : String × String :=
  (String.mk (unwrapCB statement.data).1, String.mk (unwrapCB statement.data).2)

/-- Python whitespace characters recognised by `str.strip()` (ASCII). -/
def isPySpace (c : Char) : Bool :=
  c == ' ' || c == '\t' || c == '\n' || c == '\r' || c == '\x0b' || c == '\x0c'

/-- Strips leading whitespace from a character list. -/
def stripLead (l : List Char) : List Char :=
  l.dropWhile isPySpace

/-- Strips trailing whitespace from a character list. -/
def stripTrail (l : List Char) : List Char :=
  (l.reverse.dropWhile isPySpace).reverse

/-- Python `s.strip()` on strings: removes leading and trailing
whitespace. -/
def pyStrip (s : String) : String :=
  String.mk (stripTrail (stripLead s.data))

/-- Python `str.lower` on a single character (ASCII model): uppercase
letters are shifted down by 32, everything else is unchanged. -/
def toLowerChar (c : Char) : Char :=
  if 65 ≤ c.toNat ∧ c.toNat ≤ 90 then Char.ofNat (c.toNat + 32) else c

/-- Python `s.lower()` on strings (ASCII model). -/
def pyLower (s : String) : String :=
  String.mk (s.data.map toLowerChar)

/-- Python `s.replace(pat, rep)` over character lists, for a non-empty
pattern, with explicit fuel (one unit per character consumed); scans left
to right replacing non-overlapping occurrences. -/
def replaceAllAux (pat rep : List Char) : Nat → List Char → List Char
  | 0, s => s
  | _ + 1, [] => []
  | fuel + 1, c :: t =>
    if isLead pat (c :: t) then rep ++ replaceAllAux pat rep fuel ((c :: t).drop pat.length)
    else c :: replaceAllAux pat rep fuel t

/-- Python `s.replace(pat, rep)` on strings.  src/main.py only calls
`str.replace` with non-empty patterns; an empty pattern leaves the string
unchanged here. -/
def pyReplace (s pat rep : String) : String :=
  if pat.data.isEmpty then s
  else String.mk (replaceAllAux pat.data rep.data s.data.length s.data)

/-- Association-list lookup by string key, modelling Python dict lookup
(`aliases[name]` / `name in aliases`). -/
def lookupA {α : Type} (key : String) : List (String × α) → Option α
  | [] => none
  | p :: t => if key = p.1 then some p.2 else lookupA key t

/-- Sequential `INSERT OR IGNORE` of `newRows` into the `languages` table
rows, as `_save_languages` performs (src/main.py lines 145-154) under the
table's `UNIQUE (language_name)` constraint: each new row is appended
unless it is already present. -/
def insertOrIgnore (rows newRows : List String) : List String :=
  newRows.foldl (fun acc x => if x ∈ acc then acc else acc ++ [x]) rows

/-- Embedding of `load_languages` (src/main.py lines 120-135) together
with `create_languages_table` (lines 157-180).  The store is
`some rows` when the `languages` table exists with the given rows and
`none` when it is structurally absent (the `sqlite3.OperationalError`
case).  Returns the language list handed back to the caller, the table
rows afterwards, and whether the remote collaborator was queried. -/
def load_languages (db : Option (List String)) (remote : List String)
    (aliases : List (String × String)) : List String × List String × Bool :=
  match db with
  | some rows => (rows, rows, false)
  | none =>
    let langs := remote ++ aliases.map Prod.fst
    (langs, insertOrIgnore [] langs, true)

/-- Embedding of the staleness-refresh block of `run_code`
(src/main.py lines 261-265), which the specification calls
`refresh_if_stale`: when the count of persisted canonical languages
(in-memory entries minus aliases) differs from the remote live count, the
live list united with the alias names is bulk-inserted with
`INSERT OR IGNORE` via `save_languages` (lines 138-154).  Returns the
in-memory language list afterwards, the table rows afterwards, and
whether a store write happened. -/
def refresh_if_stale (languages : List String) (aliases : List (String × String))
    (remote : List String) (db : List String) : List String × List String × Bool :=
  if (languages.length : Int) - (aliases.length : Int) ≠ (remote.length : Int) then
    let langs2 := remote ++ aliases.map Prod.fst
    (langs2, insertOrIgnore db langs2, true)
  else (languages, db, false)

/-- Modelled from the spec: `dealias` lives in the repository's `aliases`
module, which is not under src/.  Per spec section 4.2, a canonical
language is returned unchanged and a known alias is mapped to its
target. -/
def dealias (name : String) (aliases : List (String × String)) : String :=
  match lookupA name aliases with
  | some target => target
  | none => name

/-- Modelled from the spec: `wrap_jargon` lives in the repository's
`jargon` module, which is not under src/.  Per spec section 4.3, a
template keyed by the literal name supplied holds boilerplate around a
single insertion point; wrapping splices the code there, and a missing
template leaves the code unchanged.  A template is modelled as the
boilerplate before and after the insertion point. -/
def wrap_jargon (code : String) (key : String)
    (store : List (String × (String × String))) : String :=
  match lookupA key store with
  | some t => t.1 ++ code ++ t.2
  | none => code

/-- The fence-splitting step of `get_code` (src/main.py lines 243-245):
the raw code is split by `unwrap_code_block` only when it contains the
triple-backtick delimiter, and otherwise taken whole with empty stdin. -/
def codeAndInputs (rawCode : String) : String × String :=
  if pyContains rawCode "```" then unwrap_code_block rawCode else (rawCode, "")

/-- Embedding of the pure part of `get_code` (src/main.py lines 233-248):
splits fenced input, wraps the code with the jargon template keyed by the
originally chosen token, and only then dealiases the token.  Returns
`(chosen_language, code, inputs)` in the source's order, with the raw
code from the line editor passed explicitly. -/
def get_code (chosen_language : String) (aliases : List (String × String))
    (jargonStore : List (String × (String × String))) (rawCode : String) :
    String × String × String :=
  let ci := codeAndInputs rawCode
  let code := wrap_jargon ci.1 chosen_language jargonStore
  let lang := dealias chosen_language aliases
  (lang, code, ci.2)

/-- The result of `list_languages` (src/main.py lines 209-230): the count
printed in the header, the sorted entry names, the decorated strings
actually joined for display, and whether an alias was included. -/
structure ListOutput where
  countShown : Int
  entries : List String
  decorated : List String
  aliasIncluded : Bool
deriving DecidableEq

/-- Lexicographic at-most-equal comparison of character lists by code
point, the order Python `sorted` uses on strings. -/
def strLeB : List Char → List Char → Bool
  | [], _ => true
  | _ :: _, [] => false
  | x :: xs, y :: ys => if x.toNat = y.toNat then strLeB xs ys else Nat.blt x.toNat y.toNat

/-- Insertion of a string into a list ahead of the first element it is
at most equal to; used to model Python `sorted`. -/
def insertSorted (x : String) : List String → List String
  | [] => [x]
  | y :: t => if strLeB x.data y.data then x :: y :: t else y :: insertSorted x t

/-- Python `sorted` on a list of strings, modelled as insertion sort. -/
def pySorted (l : List String) : List String :=
  l.foldr insertSorted []

/-- The ANSI decoration `list_languages` applies to alias entries
(src/main.py lines 223-226). -/
def decorateEntry (aliases : List (String × String)) (s : String) : String :=
  if (lookupA s aliases).isSome then "\x1b[36m" ++ s ++ "\x1b[0m" else s

/-- Embedding of `list_languages` (src/main.py lines 209-230): with a
non-empty filter the entries are those starting with it and the printed
count is their number; with an empty filter every entry is shown but the
printed count is the total minus the number of aliases.  Entries are
sorted and alias entries are decorated in the joined output. -/
def list_languages (valid_languages : List String)
    (aliases : List (String × String)) (filterText : String) : ListOutput :=
  if filterText = "" then
    let sortedL := pySorted valid_languages
    { countShown := (valid_languages.length : Int) - (aliases.length : Int)
      entries := sortedL
      decorated := sortedL.map (decorateEntry aliases)
      aliasIncluded := sortedL.any (fun s => (lookupA s aliases).isSome) }
  else
    let filtered := valid_languages.filter (fun s => pyStartsWith s filterText)
    let sortedL := pySorted filtered
    { countShown := (filtered.length : Int)
      entries := sortedL
      decorated := sortedL.map (decorateEntry aliases)
      aliasIncluded := sortedL.any (fun s => (lookupA s aliases).isSome) }

/-- One observable step of `parse_choice` (src/main.py lines 63-117). -/
inductive Effect where
  | printedHelp : Effect
  | exited : Effect
  | printed : String → Effect
  | printedJargon : String → Effect
  | listedLanguages : String → Effect
  | deletedAlias : String → Effect
  | executed : String → Effect
deriving DecidableEq

/-- Embedding of `parse_choice` (src/main.py lines 63-117) as a pure
dispatch: given the catalog, the alias map, and the (already lowercased
and stripped) input line, returns the trace of performed effects and the
message of the raised `InputError`, if any.  Branches, their order, the
`str.replace`/`str.strip` argument extraction, and the emitted message
texts follow the source. -/
def parse_choice (languages : List String) (aliases : List (String × String))
    (choice : String) : List Effect × Option String :=
  if choice = "help" then ([Effect.printedHelp], none)
  else if choice = "exit" then ([Effect.exited], none)
  else if pyStartsWith choice "jargon " then
    let c := pyStrip (pyReplace choice "jargon " "")
    let warn : List Effect :=
      if c ∈ languages then [] else [Effect.printed ("Invalid language: `" ++ c ++ "`")]
    (warn ++ [Effect.printedJargon c], none)
  else if choice = "list" ∨ pyStartsWith choice "list " = true then
    let f := if pyStartsWith choice "list " then pyStrip (pyReplace choice "list " "") else ""
    ([Effect.listedLanguages f], none)
  else if pyStartsWith choice "alias " then
    let c := pyStrip (pyReplace choice "alias " "")
    let warn : List Effect :=
      if c ∈ languages then [] else [Effect.printed ("Invalid language: `" ++ c ++ "`")]
    match lookupA c aliases with
    | some target =>
      (warn ++ [Effect.printed ("`" ++ c ++ "` is an alias of `" ++ target ++ "`")], none)
    | none => (warn ++ [Effect.printed ("`" ++ c ++ "` is not an alias")], none)
  else if pyStartsWith choice "delete alias " then
    let c := pyStrip (pyReplace choice "delete alias " "")
    let warn : List Effect :=
      if c ∈ languages then [] else [Effect.printed ("Invalid language: `" ++ c ++ "`")]
    if (lookupA c aliases).isSome then
      (warn ++ [Effect.deletedAlias c, Effect.printed ("Deleted alias `" ++ c ++ "`")], none)
    else (warn ++ [Effect.printed ("`" ++ c ++ "` is not an alias")], none)
  else
    if choice ∈ languages then ([Effect.executed choice], none)
    else ([], some ("Invalid language: `" ++ choice ++ "`"))

/-- The input preprocessing of `amain` (src/main.py line 53): the raw
line is lowercased and then stripped of surrounding whitespace. -/
def amain_choice (raw : String) : String :=
  pyStrip (pyLower raw)

/-- One iteration of the `amain` loop (src/main.py lines 51-60) as seen
by the dispatcher: the preprocessed line is handed to `parse_choice`. -/
def amain_step (raw : String) (languages : List String)
    (aliases : List (String × String)) : List Effect × Option String :=
  parse_choice languages aliases (amain_choice raw)

/-! Helper lemmas about the string primitives. -/

theorem splitFirst_of_isLead (pat s : List Char) (h : isLead pat s = true) :
    splitFirst pat s = some ([], s.drop pat.length) := by
  cases s <;> simp [splitFirst, h]

theorem isLead_eq_false_of_splitFirst_eq_none (pat s : List Char)
    (h : splitFirst pat s = none) : isLead pat s = false := by
  cases hh : isLead pat s
  · rfl
  · rw [splitFirst_of_isLead pat s hh] at h
    exact Option.noConfusion h

theorem splitFirst_tail_eq_none (pat : List Char) (c : Char) (t : List Char)
    (h : splitFirst pat (c :: t) = none) : splitFirst pat t = none := by
  unfold splitFirst at h
  split at h
  · exact Option.noConfusion h
  · exact Option.map_eq_none'.mp h

theorem dropWhile_append_of_sat (p : Char → Bool) (w l : List Char)
    (h : ∀ c ∈ w, p c = true) : List.dropWhile p (w ++ l) = List.dropWhile p l := by
  induction w with
  | nil => simp
  | cons c t ih =>
    have hc : p c = true := h c (List.mem_cons_self c t)
    simp only [List.cons_append, List.dropWhile_cons, hc, if_true]
    exact ih (fun x hx => h x (List.mem_cons_of_mem c hx))

theorem dropWhile_eq_nil_of_sat (p : Char → Bool) (w : List Char)
    (h : ∀ c ∈ w, p c = true) : List.dropWhile p w = [] := by
  have h0 := dropWhile_append_of_sat p w [] h
  simpa using h0

theorem stripLead_append_of_sat (w l : List Char) (h : ∀ c ∈ w, isPySpace c = true) :
    stripLead (w ++ l) = stripLead l :=
  dropWhile_append_of_sat isPySpace w l h

theorem stripTrail_append_of_sat (l w : List Char) (h : ∀ c ∈ w, isPySpace c = true) :
    stripTrail (l ++ w) = stripTrail l := by
  unfold stripTrail
  rw [List.reverse_append]
  rw [dropWhile_append_of_sat isPySpace w.reverse l.reverse
    (fun c hc => h c (List.mem_reverse.mp hc))]

theorem stripTrail_stripLead_pad (w1 l w2 : List Char)
    (h1 : ∀ c ∈ w1, isPySpace c = true) (h2 : ∀ c ∈ w2, isPySpace c = true) :
    stripTrail (stripLead (w1 ++ l ++ w2)) = stripTrail (stripLead l) := by
  have e1 : stripLead (w1 ++ l ++ w2) = stripLead (l ++ w2) := by
    rw [List.append_assoc]
    exact stripLead_append_of_sat w1 (l ++ w2) h1
  rw [e1]
  by_cases hnil : stripLead l = []
  · have hall : ∀ c ∈ l, isPySpace c = true := by
      intro c hc
      exact List.dropWhile_eq_nil_iff.mp hnil c hc
    have e2 : stripLead (l ++ w2) = [] := by
      refine dropWhile_eq_nil_of_sat _ _ ?_
      intro c hc
      rcases List.mem_append.mp hc with h | h
      · exact hall c h
      · exact h2 c h
    rw [e2, hnil]
  · have e2 : stripLead (l ++ w2) = stripLead l ++ w2 := by
      unfold stripLead
      rw [List.dropWhile_append, if_neg]
      simp only [List.isEmpty_iff]
      exact hnil
    rw [e2]
    exact stripTrail_append_of_sat _ _ h2

theorem map_eq_self_of_fix {α : Type} (f : α → α) (l : List α)
    (h : ∀ c ∈ l, f c = c) : l.map f = l := by
  induction l with
  | nil => rfl
  | cons c t ih =>
    simp only [List.map_cons, h c (List.mem_cons_self c t)]
    rw [ih (fun x hx => h x (List.mem_cons_of_mem c hx))]

theorem toLowerChar_of_space (c : Char) (h : isPySpace c = true) : toLowerChar c = c := by
  simp only [isPySpace, Bool.or_eq_true, beq_iff_eq] at h
  rcases h with ((((h | h) | h) | h) | h) | h <;> subst h <;> decide

/-! Theorems for the input-splitting claims. -/

/-- Claim C2 (corrected): on the fenced input
`"```\nprint(1)\n```\n5\n"` the splitter returns code `"print(1)"` and
stdin `"\n5\n"` — everything after the closing delimiter, including the
newline that immediately follows it, becomes stdin (the claim said
`"5\n"`) — and every input containing no fence delimiter is returned
unchanged as code with empty stdin. -/
theorem unwrap_code_block_fenced_and_plain :
    unwrap_code_block "```\nprint(1)\n```\n5\n" = ("print(1)", "\n5\n") ∧
    ∀ s : String, pyContains s "```" = false → unwrap_code_block s = (s, "") := by
  constructor
  · decide
  · intro s h
    have hbt : "```".data = backticks := rfl
    have hnone : splitFirst backticks s.data = none := by
      unfold pyContains at h
      rw [hbt] at h
      cases hq : splitFirst backticks s.data
      · rfl
      · rw [hq] at h
        simp at h
    have hns : isLead backticks s.data = false :=
      isLead_eq_false_of_splitFirst_eq_none _ _ hnone
    unfold unwrap_code_block unwrapCB
    rw [hns]
    simp

/-- Witness for claim C2's theorem: a concrete fence-free input is
returned unchanged. -/
theorem unwrap_code_block_fenced_and_plain_witness :
    pyContains "print(1)" "```" = false ∧ unwrap_code_block "print(1)" = ("print(1)", "") :=
  ⟨by decide, unwrap_code_block_fenced_and_plain.2 "print(1)" (by decide)⟩

/-- Counterexample to claim C2 as stated: on the fenced example the
splitter's stdin is not `"5\n"`. -/
theorem unwrap_code_block_fenced_stdin_counterexample :
    unwrap_code_block "```\nprint(1)\n```\n5\n" ≠ ("print(1)", "5\n") := by
  decide

/-- Claim C3 (corrected): an input that begins with the opening
delimiter but has no closing delimiter does not fail: the remainder
after the opening delimiter — with one immediately following newline
stripped and also one trailing newline stripped (the claim omitted the
trailing strip) — is all code, and stdin is empty. -/
theorem unwrap_code_block_missing_close :
    ∀ s : String, pyStartsWith s "```" = true →
      pyContains (pyDrop s 3) "```" = false →
      unwrap_code_block s = (String.mk (stripTrailNl (stripLeadNl (s.data.drop 3))), "") := by
  intro s h1 h2
  have hbt : "```".data = backticks := rfl
  have hlead : isLead backticks s.data = true := by
    unfold pyStartsWith at h1
    rw [hbt] at h1
    exact h1
  have hn1 : splitFirst backticks (s.data.drop 3) = none := by
    unfold pyContains pyDrop at h2
    rw [hbt] at h2
    cases hq : splitFirst backticks (s.data.drop 3)
    · rfl
    · rw [show (String.mk (s.data.drop 3)).data = s.data.drop 3 from rfl, hq] at h2
      simp at h2
  have hn2 : splitFirst backticks (stripLeadNl (s.data.drop 3)) = none := by
    cases hd : s.data.drop 3 with
    | nil =>
      rw [hd] at hn1
      simpa [stripLeadNl] using hn1
    | cons c t =>
      rw [hd] at hn1
      have ht := splitFirst_tail_eq_none backticks c t hn1
      show splitFirst backticks (if c = '\n' then t else c :: t) = none
      by_cases hc : c = '\n'
      · rw [if_pos hc]
        exact ht
      · rw [if_neg hc]
        exact hn1
  unfold unwrap_code_block unwrapCB
  rw [hlead]
  simp [hn2]

/-- Witness for claim C3's theorem: a concrete input with an opening
delimiter and no closing delimiter. -/
theorem unwrap_code_block_missing_close_witness :
    pyStartsWith "```\nabc\n" "```" = true ∧
    unwrap_code_block "```\nabc\n" =
      (String.mk (stripTrailNl (stripLeadNl (("```\nabc\n" : String).data.drop 3))), "") :=
  ⟨by decide, unwrap_code_block_missing_close "```\nabc\n" (by decide) (by decide)⟩

/-- Counterexample to claim C3 as stated: on `"```\nabc\n"` (opening
delimiter, no closing delimiter) the code is `"abc"`, not the
remainder-with-only-the-leading-newline-stripped `"abc\n"`. -/
theorem unwrap_code_block_missing_close_counterexample :
    pyStartsWith "```\nabc\n" "```" = true ∧
    pyContains (pyDrop "```\nabc\n" 3) "```" = false ∧
    unwrap_code_block "```\nabc\n" ≠ ("abc\n", "") ∧
    unwrap_code_block "```\nabc\n" = ("abc", "") := by
  refine ⟨by decide, by decide, by decide, by decide⟩

/-- Claim C8 (confirmed): a fence delimiter strictly inside the input
does not trigger splitting — only an input that starts with the
delimiter is split; anything else is returned unchanged with empty
stdin. -/
theorem unwrap_code_block_mid_input_delimiter :
    ∀ s : String, pyContains s "```" = true → pyStartsWith s "```" = false →
      unwrap_code_block s = (s, "") := by
  intro s _ h2
  have hbt : "```".data = backticks := rfl
  have hns : isLead backticks s.data = false := by
    unfold pyStartsWith at h2
    rw [hbt] at h2
    exact h2
  unfold unwrap_code_block unwrapCB
  rw [hns]
  simp

/-- Witness for claim C8's theorem: a concrete input with a mid-input
delimiter is returned unchanged. -/
theorem unwrap_code_block_mid_input_delimiter_witness :
    pyContains "a```b" "```" = true ∧ unwrap_code_block "a```b" = ("a```b", "") :=
  ⟨by decide, unwrap_code_block_mid_input_delimiter "a```b" (by decide) (by decide)⟩

/-! Helper lemmas about the modelled `INSERT OR IGNORE` bulk insert. -/

theorem insertOrIgnore_cons (rows : List String) (x : String) (t : List String) :
    insertOrIgnore rows (x :: t) =
      insertOrIgnore (if x ∈ rows then rows else rows ++ [x]) t := rfl

theorem mem_insertOrIgnore (rows xs : List String) (y : String) :
    y ∈ insertOrIgnore rows xs ↔ y ∈ rows ∨ y ∈ xs := by
  induction xs generalizing rows with
  | nil => simp [insertOrIgnore]
  | cons x t ih =>
    rw [insertOrIgnore_cons, ih]
    by_cases hx : x ∈ rows
    · rw [if_pos hx]
      simp only [List.mem_cons]
      constructor
      · rintro (h | h)
        · exact Or.inl h
        · exact Or.inr (Or.inr h)
      · rintro (h | h | h)
        · exact Or.inl h
        · exact Or.inl (h ▸ hx)
        · exact Or.inr h
    · rw [if_neg hx]
      simp only [List.mem_append, List.mem_singleton, List.mem_cons]
      tauto

theorem insertOrIgnore_nodup (rows xs : List String) (h : rows.Nodup) :
    (insertOrIgnore rows xs).Nodup := by
  induction xs generalizing rows with
  | nil => exact h
  | cons x t ih =>
    rw [insertOrIgnore_cons]
    by_cases hx : x ∈ rows
    · rw [if_pos hx]
      exact ih rows h
    · rw [if_neg hx]
      refine ih _ ?_
      simp [List.nodup_append, h, hx]

theorem insertOrIgnore_eq_self (rows xs : List String)
    (h : ∀ x ∈ xs, x ∈ rows) : insertOrIgnore rows xs = rows := by
  induction xs generalizing rows with
  | nil => rfl
  | cons x t ih =>
    rw [insertOrIgnore_cons, if_pos (h x (List.mem_cons_self x t))]
    exact ih rows (fun y hy => h y (List.mem_cons_of_mem x hy))

/-! Theorems for the catalog claims. -/

/-- Counterexample to claim C1 as stated: when the `languages` table
exists but is empty, `load_languages` returns the empty catalog without
querying the remote collaborator and without rebuilding — the rebuild is
triggered only by the table being structurally absent, not by it being
empty. -/
theorem load_languages_empty_store_counterexample :
    load_languages (some []) ["python"] [] = ([], [], false) ∧
    ([] : List String) ≠ ["python"] := by
  refine ⟨rfl, by decide⟩

/-- Claim C1 (corrected): `load_languages` returns the persisted
language rows whenever the table structurally exists — even when it is
empty — and only when the table is absent does it query the remote
collaborator, union the live list with all known alias names, persist
that union (deduplicated by the `UNIQUE` constraint), and return it; the
absent store triggers a rebuild rather than an error. -/
theorem load_languages_store_presence (rows remote : List String)
    (aliases : List (String × String)) :
    load_languages (some rows) remote aliases = (rows, rows, false) ∧
    load_languages none remote aliases =
      (remote ++ aliases.map Prod.fst,
       insertOrIgnore [] (remote ++ aliases.map Prod.fst), true) ∧
    (∀ x, x ∈ (load_languages none remote aliases).2.1 ↔
      x ∈ remote ∨ x ∈ aliases.map Prod.fst) := by
  refine ⟨rfl, rfl, ?_⟩
  intro x
  show x ∈ insertOrIgnore [] (remote ++ aliases.map Prod.fst) ↔ _
  rw [mem_insertOrIgnore]
  simp

/-- Claim C4 (confirmed): the staleness refresh of `run_code` performs
no store write when the persisted canonical count (in-memory entries
minus aliases) equals the remote live count; otherwise it performs
exactly one idempotent bulk insert; and running it twice in a row leaves
the store rows unchanged the second time and never introduces duplicate
rows. -/
theorem refresh_if_stale_idempotent (l : List String)
    (a : List (String × String)) (r d : List String) :
    ((l.length : Int) - (a.length : Int) = (r.length : Int) →
      refresh_if_stale l a r d = (l, d, false)) ∧
    ((l.length : Int) - (a.length : Int) ≠ (r.length : Int) →
      (refresh_if_stale l a r d).2.2 = true ∧
      (refresh_if_stale l a r d).2.1 = insertOrIgnore d (r ++ a.map Prod.fst)) ∧
    (d.Nodup → (refresh_if_stale l a r d).2.1.Nodup) ∧
    (refresh_if_stale l a r (refresh_if_stale l a r d).2.1).2.1 =
      (refresh_if_stale l a r d).2.1 := by
  refine ⟨?_, ?_, ?_, ?_⟩
  · intro h
    unfold refresh_if_stale
    rw [if_neg]
    intro hne
    exact hne h
  · intro h
    unfold refresh_if_stale
    rw [if_pos h]
    exact ⟨rfl, rfl⟩
  · intro hd
    unfold refresh_if_stale
    by_cases h : (l.length : Int) - (a.length : Int) ≠ (r.length : Int)
    · rw [if_pos h]
      exact insertOrIgnore_nodup d _ hd
    · rw [if_neg h]
      exact hd
  · by_cases h : (l.length : Int) - (a.length : Int) ≠ (r.length : Int)
    · unfold refresh_if_stale
      rw [if_pos h, if_pos h]
      show insertOrIgnore (insertOrIgnore d (r ++ a.map Prod.fst)) (r ++ a.map Prod.fst) =
        insertOrIgnore d (r ++ a.map Prod.fst)
      refine insertOrIgnore_eq_self _ _ ?_
      intro x hx
      rw [mem_insertOrIgnore]
      exact Or.inr hx
    · unfold refresh_if_stale
      rw [if_neg h, if_neg h]

/-- Witness for claim C4's theorem: concrete stale and fresh catalog
states. -/
theorem refresh_if_stale_idempotent_witness :
    refresh_if_stale ["python"] [] ["python"] ["python"] = (["python"], ["python"], false) ∧
    (refresh_if_stale ["python"] [] ["python", "go"] ["python"]).2.2 = true ∧
    (refresh_if_stale ["python"] [] ["python", "go"] ["python"]).2.1.Nodup ∧
    (refresh_if_stale ["python"] [] ["python", "go"]
        (refresh_if_stale ["python"] [] ["python", "go"] ["python"]).2.1).2.1 =
      (refresh_if_stale ["python"] [] ["python", "go"] ["python"]).2.1 :=
  ⟨(refresh_if_stale_idempotent ["python"] [] ["python"] ["python"]).1 (by decide),
   ((refresh_if_stale_idempotent ["python"] [] ["python", "go"] ["python"]).2.1 (by decide)).1,
   (refresh_if_stale_idempotent ["python"] [] ["python", "go"] ["python"]).2.2.1 (by decide),
   (refresh_if_stale_idempotent ["python"] [] ["python", "go"] ["python"]).2.2.2⟩

/-! Helper lemmas about the sorting model. -/

theorem insertSorted_perm (x : String) (l : List String) :
    List.Perm (insertSorted x l) (x :: l) := by
  induction l with
  | nil => exact List.Perm.refl _
  | cons y t ih =>
    unfold insertSorted
    by_cases hb : strLeB x.data y.data = true
    · rw [if_pos hb]
    · rw [if_neg hb]
      exact List.Perm.trans (List.Perm.cons y ih) (List.Perm.swap x y t)

theorem pySorted_perm (l : List String) : List.Perm (pySorted l) l := by
  induction l with
  | nil => exact List.Perm.refl _
  | cons x t ih =>
    exact List.Perm.trans (insertSorted_perm x (pySorted t)) (List.Perm.cons x ih)

/-! Theorems for the listing claims. -/

/-- Claim C7 (confirmed): with a non-empty filter text, `list_languages`
shows exactly the catalog entries whose name starts with that text, and
the count it prints equals the size of that filtered set. -/
theorem list_languages_with_filter (valid_languages : List String)
    (aliases : List (String × String)) (filterText : String)
    (h : filterText ≠ "") :
    List.Perm (list_languages valid_languages aliases filterText).entries
      (valid_languages.filter (fun s => pyStartsWith s filterText)) ∧
    (∀ x, x ∈ (list_languages valid_languages aliases filterText).entries ↔
      x ∈ valid_languages ∧ pyStartsWith x filterText = true) ∧
    (list_languages valid_languages aliases filterText).countShown =
      ((valid_languages.filter (fun s => pyStartsWith s filterText)).length : Int) := by
  unfold list_languages
  rw [if_neg h]
  refine ⟨pySorted_perm _, ?_, rfl⟩
  intro x
  rw [(pySorted_perm _).mem_iff, List.mem_filter]

/-- Witness for claim C7's theorem: a concrete catalog filtered by a
concrete non-empty filter text. -/
theorem list_languages_with_filter_witness :
    List.Perm (list_languages ["python", "java", "perl"] [("py", "python")] "p").entries
      (["python", "java", "perl"].filter (fun s => pyStartsWith s "p")) ∧
    (∀ x, x ∈ (list_languages ["python", "java", "perl"] [("py", "python")] "p").entries ↔
      x ∈ ["python", "java", "perl"] ∧ pyStartsWith x "p" = true) ∧
    (list_languages ["python", "java", "perl"] [("py", "python")] "p").countShown =
      ((["python", "java", "perl"].filter (fun s => pyStartsWith s "p")).length : Int) :=
  list_languages_with_filter ["python", "java", "perl"] [("py", "python")] "p" (by decide)

/-- Claim C10 (confirmed): with no filter text, `list_languages` shows
every catalog entry (canonical languages and aliases together, sorted),
but the count it prints is the total number of entries minus the number
of aliases — not the number of entries shown. -/
theorem list_languages_no_filter_count (valid_languages : List String)
    (aliases : List (String × String)) :
    List.Perm (list_languages valid_languages aliases "").entries valid_languages ∧
    (list_languages valid_languages aliases "").entries.length = valid_languages.length ∧
    (list_languages valid_languages aliases "").countShown =
      (valid_languages.length : Int) - (aliases.length : Int) := by
  unfold list_languages
  rw [if_pos rfl]
  exact ⟨pySorted_perm _, (pySorted_perm _).length_eq, rfl⟩

/-! Helper lemma about alias lookup. -/

theorem lookupA_eq_none {α : Type} (key : String) (l : List (String × α))
    (h : ∀ p ∈ l, p.1 ≠ key) : lookupA key l = none := by
  induction l with
  | nil => rfl
  | cons p t ih =>
    unfold lookupA
    rw [if_neg]
    · exact ih (fun q hq => h q (List.mem_cons_of_mem p hq))
    · intro he
      exact h p (List.mem_cons_self p t) he.symm

/-! Theorems for the dispatch claim. -/

/-- Counterexample to claim C5 as stated: with catalog `["python"]` the
input `"jargon foo"` carries the unknown token `"foo"`, and the jargon
command prints the invalid-language message but still performs its
action — `print_jargon` is invoked with the unknown token. -/
theorem parse_choice_jargon_counterexample :
    parse_choice ["python"] [] "jargon foo" =
      ([Effect.printed "Invalid language: `foo`", Effect.printedJargon "foo"], none) ∧
    Effect.printedJargon "foo" ∈ (parse_choice ["python"] [] "jargon foo").1 := by
  refine ⟨by decide, by decide⟩

/-- Claim C5 (corrected): an unknown token on the fallback branch raises
`InputError` carrying the offending token; the alias and delete-alias
commands print the invalid-language message and a not-an-alias message
without raising and without deleting (given every alias name is in the
catalog); but the jargon command, after printing the invalid-language
message, still performs its action on the unknown token. -/
theorem parse_choice_unknown_token (languages : List String)
    (aliases : List (String × String)) :
    (∀ choice, choice ≠ "help" → choice ≠ "exit" →
      pyStartsWith choice "jargon " = false →
      ¬(choice = "list" ∨ pyStartsWith choice "list " = true) →
      pyStartsWith choice "alias " = false →
      pyStartsWith choice "delete alias " = false →
      choice ∉ languages →
      parse_choice languages aliases choice =
        ([], some ("Invalid language: `" ++ choice ++ "`"))) ∧
    (∀ choice c, choice ≠ "help" → choice ≠ "exit" →
      pyStartsWith choice "jargon " = true →
      c = pyStrip (pyReplace choice "jargon " "") →
      c ∉ languages →
      parse_choice languages aliases choice =
        ([Effect.printed ("Invalid language: `" ++ c ++ "`"),
          Effect.printedJargon c], none)) ∧
    (∀ choice c, choice ≠ "help" → choice ≠ "exit" →
      pyStartsWith choice "jargon " = false →
      ¬(choice = "list" ∨ pyStartsWith choice "list " = true) →
      pyStartsWith choice "alias " = true →
      c = pyStrip (pyReplace choice "alias " "") →
      c ∉ languages →
      (∀ p ∈ aliases, p.1 ∈ languages) →
      parse_choice languages aliases choice =
        ([Effect.printed ("Invalid language: `" ++ c ++ "`"),
          Effect.printed ("`" ++ c ++ "` is not an alias")], none)) ∧
    (∀ choice c, choice ≠ "help" → choice ≠ "exit" →
      pyStartsWith choice "jargon " = false →
      ¬(choice = "list" ∨ pyStartsWith choice "list " = true) →
      pyStartsWith choice "alias " = false →
      pyStartsWith choice "delete alias " = true →
      c = pyStrip (pyReplace choice "delete alias " "") →
      c ∉ languages →
      (∀ p ∈ aliases, p.1 ∈ languages) →
      parse_choice languages aliases choice =
        ([Effect.printed ("Invalid language: `" ++ c ++ "`"),
          Effect.printed ("`" ++ c ++ "` is not an alias")], none)) := by
  refine ⟨?_, ?_, ?_, ?_⟩
  · intro choice h1 h2 h3 h4 h5 h6 hc
    simp only [parse_choice, h1, h2, h3, h4, h5, h6]
    simp only [Bool.false_eq_true, if_false, ite_false]
    rw [if_neg hc]
  · intro choice c h1 h2 h3 hceq hc
    simp only [parse_choice, h1, h2, h3]
    simp only [ite_false, ite_true]
    rw [← hceq, if_neg hc]
    rfl
  · intro choice c h1 h2 h3 h4 h5 hceq hc hinv
    have hlk : lookupA c aliases = none := by
      refine lookupA_eq_none c aliases ?_
      intro p hp he
      exact hc (he ▸ hinv p hp)
    simp only [parse_choice, h1, h2, h3, h4, h5]
    rw [← hceq]
    simp only [Bool.false_eq_true, if_false, ite_false, ite_true, hlk, if_neg hc]
    rfl
  · intro choice c h1 h2 h3 h4 h5 h6 hceq hc hinv
    have hlk : lookupA c aliases = none := by
      refine lookupA_eq_none c aliases ?_
      intro p hp he
      exact hc (he ▸ hinv p hp)
    simp only [parse_choice, h1, h2, h3, h4, h5, h6]
    rw [← hceq]
    simp only [Bool.false_eq_true, if_false, ite_false, ite_true, hlk, if_neg hc,
      Option.isSome_none]
    rfl

/-- Witness for claim C5's theorem: the four branches at a concrete
catalog and concrete unknown tokens. -/
theorem parse_choice_unknown_token_witness :
    parse_choice ["python", "py"] [("py", "python")] "foo" =
      ([], some "Invalid language: `foo`") ∧
    parse_choice ["python", "py"] [("py", "python")] "jargon foo" =
      ([Effect.printed "Invalid language: `foo`", Effect.printedJargon "foo"], none) ∧
    parse_choice ["python", "py"] [("py", "python")] "alias foo" =
      ([Effect.printed "Invalid language: `foo`",
        Effect.printed "`foo` is not an alias"], none) ∧
    parse_choice ["python", "py"] [("py", "python")] "delete alias foo" =
      ([Effect.printed "Invalid language: `foo`",
        Effect.printed "`foo` is not an alias"], none) :=
  ⟨(parse_choice_unknown_token ["python", "py"] [("py", "python")]).1 "foo"
      (by decide) (by decide) (by decide) (by decide) (by decide) (by decide) (by decide),
   (parse_choice_unknown_token ["python", "py"] [("py", "python")]).2.1 "jargon foo" "foo"
      (by decide) (by decide) (by decide) (by decide) (by decide),
   (parse_choice_unknown_token ["python", "py"] [("py", "python")]).2.2.1 "alias foo" "foo"
      (by decide) (by decide) (by decide) (by decide) (by decide) (by decide) (by decide)
      (by decide),
   (parse_choice_unknown_token ["python", "py"] [("py", "python")]).2.2.2
      "delete alias foo" "foo"
      (by decide) (by decide) (by decide) (by decide) (by decide) (by decide) (by decide)
      (by decide) (by decide)⟩

/-! Theorem for the preparation-pipeline claim. -/

/-- Claim C6 (confirmed): `get_code` wraps the code using the originally
chosen token as the jargon key and only afterwards dealiases it: the
wrapped code equals `wrap_jargon` applied with the chosen token, it is
identical under any two alias maps (so it never depends on the dealiased
name), and the returned language is the dealiased token. -/
theorem get_code_wrap_uses_chosen_token (chosen : String)
    (a a2 : List (String × String)) (js : List (String × (String × String)))
    (raw : String) :
    (get_code chosen a js raw).2.1 = wrap_jargon (codeAndInputs raw).1 chosen js ∧
    (get_code chosen a js raw).2.1 = (get_code chosen a2 js raw).2.1 ∧
    (get_code chosen a js raw).1 = dealias chosen a ∧
    (get_code chosen a js raw).2.2 = (codeAndInputs raw).2 :=
  ⟨rfl, rfl, rfl, rfl⟩

/-! Theorems for the input-preprocessing claim. -/

/-- Claim C9 (confirmed): the dispatcher receives each raw line
lowercased and stripped of surrounding whitespace; consequently
dispatch ignores surrounding whitespace padding and is case-insensitive
(two lines equal after lowercasing dispatch identically). -/
theorem amain_lowercases_and_strips (raw raw2 pre suf : String)
    (languages : List String) (aliases : List (String × String))
    (hpre : ∀ c ∈ pre.data, isPySpace c = true)
    (hsuf : ∀ c ∈ suf.data, isPySpace c = true)
    (hcase : pyLower raw2 = pyLower raw) :
    amain_step raw languages aliases =
      parse_choice languages aliases (pyStrip (pyLower raw)) ∧
    amain_step (pre ++ raw ++ suf) languages aliases =
      amain_step raw languages aliases ∧
    amain_step raw2 languages aliases = amain_step raw languages aliases := by
  refine ⟨rfl, ?_, ?_⟩
  · have key : amain_choice (pre ++ raw ++ suf) = amain_choice raw := by
      unfold amain_choice pyStrip pyLower
      have hdata : (pre ++ raw ++ suf).data = pre.data ++ raw.data ++ suf.data := by
        rw [String.data_append, String.data_append]
      rw [hdata, List.map_append, List.map_append]
      rw [map_eq_self_of_fix toLowerChar pre.data
        (fun c hc => toLowerChar_of_space c (hpre c hc))]
      rw [map_eq_self_of_fix toLowerChar suf.data
        (fun c hc => toLowerChar_of_space c (hsuf c hc))]
      show String.mk
          (stripTrail (stripLead (pre.data ++ raw.data.map toLowerChar ++ suf.data))) = _
      rw [stripTrail_stripLead_pad _ _ _ hpre hsuf]
    unfold amain_step
    rw [key]
  · unfold amain_step amain_choice
    rw [hcase]

/-- Witness for claim C9's theorem: concrete whitespace padding and a
concrete case variant of the `list` keyword. -/
theorem amain_lowercases_and_strips_witness :
    amain_step ("  " ++ "LIST" ++ "\t") ["x"] [] = amain_step "LIST" ["x"] [] ∧
    amain_step "LiSt" ["x"] [] = amain_step "LIST" ["x"] [] := by
  have h := amain_lowercases_and_strips "LIST" "LiSt" "  " "\t" ["x"] []
    (by decide) (by decide) (by decide)
  exact ⟨h.2.1, h.2.2⟩

end RunQuick
